import Mathlib

/-!
Verification of the h3 request-handling core (note-h3 repository).

This file gives a shallow embedding, in Lean 4, of the parts of the source
needed to settle the claims about the error model (`src/error.ts`,
`src/utils/sanitize.ts`), the response serialization engine
(`src/response.ts` block in `src/adapters.ts`), the event pathname fast
path (`src/event.ts`), handler composition (`src/handler.ts`), the
`noContent` response helper (`src/utils/response.ts`) and the SSE
`EventStream` (`src/utils/internal/event-stream.ts`).

JavaScript machine values are embedded as follows: numbers that can only
ever hold integers are `Int` (with an explicit `JsNumber` carrying `nan`
where `parseInt` can produce `NaN`); strings are `String` (or `List Char`
for the SSE payload buffer, where list lemmas are needed); `undefined` /
absent fields are `Option`; the truthiness tests of the source (`!x`,
`if (x)`) are modelled explicitly on each type.
-/

set_option autoImplicit false

/-! ## JavaScript number and string primitives -/

/-- A JavaScript number restricted to the values that can reach the status
code paths: an integer or `NaN` (`parseInt` of a non-numeric string). -/
inductive JsNumber where
  | int (n : Int)
  | nan
  deriving DecidableEq, Repr

/-- A value that can sit in a `statusCode` / `status` field of an input to
`createError` or `sanitizeStatusCode`: a number or a string. -/
inductive StatusVal where
  | num (n : Int)
  | str (s : String)
  deriving DecidableEq, Repr

/-- JavaScript ASCII decimal digit test used by `parseInt`. -/
def isDigit10 (c : Char) : Bool :=
  '0' ≤ c ∧ c ≤ '9'

/-- Digit value of an ASCII digit. -/
def digitVal (c : Char) : Nat :=
  c.toNat - '0'.toNat

/-- Parse a run of leading decimal digits; `none` when there is none. -/
def parseDigits : List Char → Option Nat
  | [] => none
  | c :: rest =>
    if isDigit10 c then
      some (parseDigitsAux (digitVal c) rest)
    else
      none
where
  parseDigitsAux (acc : Nat) : List Char → Nat
    | [] => acc
    | c :: rest => if isDigit10 c then parseDigitsAux (acc * 10 + digitVal c) rest else acc

/-- The common JavaScript whitespace characters skipped by `parseInt`
before the sign and digits (only `sanitizeStatusCode`'s string parse goes
through this). -/
def isJsSpace (c : Char) : Bool :=
  c = ' ' ∨ c = '\t' ∨ c = '\n' ∨ c = '\r' ∨ c = '\x0b' ∨ c = '\x0c'

/-- `Number.parseInt(s, 10)`: skip leading whitespace, optional sign,
parse leading decimal digits, `NaN` when no digit is found. -/
def parseIntJS (s : String) : JsNumber :=
  let cs := s.toList.dropWhile isJsSpace
  match cs with
  | '-' :: rest =>
    match parseDigits rest with
    | some n => .int (-(n : Int))
    | none => .nan
  | '+' :: rest =>
    match parseDigits rest with
    | some n => .int (n : Int)
    | none => .nan
  | _ =>
    match parseDigits cs with
    | some n => .int (n : Int)
    | none => .nan

/-! ## `src/utils/sanitize.ts` -/

/-- `sanitizeStatusMessage` (src/utils/sanitize.ts): removes every
character that is not a horizontal tab, a space or a visible ASCII
character (`/[^\u0009 -~]/g` replaced by the empty string). -/
def sanitizeStatusMessage (statusMessage : String) : String :=
  String.mk (statusMessage.toList.filter fun c =>
    c = '\t' ∨ (' ' ≤ c ∧ c ≤ '\x7e'))

/-- `sanitizeStatusCode` (src/utils/sanitize.ts), full JavaScript
semantics. `none` input is a missing (`undefined`) argument; a falsy
status code (missing, `0`, the empty string, `NaN`) yields the default; a
string is parsed with `parseInt(s, 10)`; a value outside `[100, 999]`
yields the default — except `NaN`, for which both range comparisons are
false, so `NaN` is returned unchanged. -/
def sanitizeStatusCode (statusCode : Option StatusVal) (defaultStatusCode : Int) : JsNumber :=
  match statusCode with
  | none => .int defaultStatusCode
  | some (.num n) =>
    if n = 0 then .int defaultStatusCode
    else if n < 100 ∨ n > 999 then .int defaultStatusCode
    else .int n
  | some (.str s) =>
    if s = "" then .int defaultStatusCode
    else
      match parseIntJS s with
      | .nan => .nan
      | .int n =>
        if n < 100 ∨ n > 999 then .int defaultStatusCode
        else .int n

/-- `sanitizeStatusCode` specialised to a number argument that is known to
be a genuine number (the only way `createError` calls it). -/
def sanitizeStatusCodeInt (n : Int) (defaultStatusCode : Int) : Int :=
  if n = 0 then defaultStatusCode
  else if n < 100 ∨ n > 999 then defaultStatusCode
  else n

/-- The specialised sanitizer agrees with the full JavaScript one on
number inputs. -/
theorem sanitizeStatusCode_num (n d : Int) :
    sanitizeStatusCode (some (.num n)) d = .int (sanitizeStatusCodeInt n d) := by
  simp only [sanitizeStatusCode, sanitizeStatusCodeInt]
  by_cases h0 : n = 0 <;> by_cases hr : n < 100 ∨ n > 999 <;> simp [h0, hr]

/-! ## `src/error.ts`: `H3Error` and `createError` -/

/-- A JSON value (the payload type for `data` fields and serialized error
bodies). -/
inductive JVal where
  | null
  | bool (b : Bool)
  | num (n : Int)
  | str (s : String)
  | arr (l : List JVal)
  | obj (l : List (String × JVal))

/-- JavaScript truthiness of a `JVal` (`if (input.data)`). -/
def jvalTruthy : JVal → Bool
  | .null => false
  | .bool b => b
  | .num n => n ≠ 0
  | .str s => s ≠ ""
  | .arr _ => true
  | .obj _ => true

/-- The fields of a `cause` object that `createError` reads
(`cause?.statusCode`, `cause?.status`, `cause?.statusMessage`,
`cause?.statusText`, `cause?.fatal`, `cause?.unhandled`). -/
structure ErrCause where
  statusCode : Option StatusVal := none
  status : Option StatusVal := none
  statusMessage : Option String := none
  statusText : Option String := none
  fatal : Option Bool := none
  unhandled : Option Bool := none
  deriving DecidableEq, Repr

/-- An arbitrary object input to `createError`
(`Partial<H3Error> & { status?; statusText? }`): every field optional. -/
structure ErrObjInput where
  message : Option String := none
  statusMessage : Option String := none
  statusText : Option String := none
  statusCode : Option StatusVal := none
  status : Option StatusVal := none
  data : Option JVal := none
  stack : Option String := none
  fatal : Option Bool := none
  unhandled : Option Bool := none
  cause : Option ErrCause := none

/-- The `H3Error` runtime error object (src/error.ts). Fields are
initialised as in the class body: `statusCode = 500`, `fatal = false`,
`unhandled = false`, the rest absent. -/
structure H3ErrorM where
  message : String := ""
  statusCode : Int := 500
  fatal : Bool := false
  unhandled : Bool := false
  statusMessage : Option String := none
  data : Option JVal := none
  stack : Option String := none
  /-- The `cause` option passed to the constructor; `createError` sets it
  to `input.cause || input`, which we record as the cause fields when the
  input has a `cause` (nothing in the serialization layer reads it). -/
  cause : Option ErrCause := none

/-- The three runtime shapes accepted by `createError`: a plain string, an
object that is already an `H3Error` (recognised through the
`__h3_error__` marker and returned unchanged), or an arbitrary object. -/
inductive ErrInput where
  | str (s : String)
  | h3 (e : H3ErrorM)
  | obj (i : ErrObjInput)

/-- `createError` (src/error.ts). A string input becomes the `message` of
a fresh `H3Error`; an `H3Error` input is returned unchanged; otherwise the
fields are derived exactly as in the source: `message` from
`input.message ?? input.statusMessage ?? ""`; `stack` copied when the
input has one; `data` copied when truthy; `statusCode` resolved through
`input.statusCode ?? input.status ?? cause?.statusCode ?? cause?.status`
and, only when the resolved value is a number (`typeof statusCode ===
"number"`), sanitized with `sanitizeStatusCode(statusCode)` — note: with
the sanitizer's generic default `200`, not `500`; `statusMessage`
resolved through the analogous chain and sanitized when truthy;
`fatal` / `unhandled` resolved through `input.<f> ?? cause?.<f>` and
assigned when defined. The source performs these as sequential
assignments to distinct fields of the freshly constructed error, so they
are rendered as one record literal (unassigned fields keep the class
defaults: `statusCode = 500`, `fatal = unhandled = false`). -/
def createError : ErrInput → H3ErrorM
  | .str s => { message := s }
  | .h3 e => e
  | .obj input =>
    let cause := input.cause
    let statusCode :=
      input.statusCode.or (input.status.or ((cause.bind ErrCause.statusCode).or
        (cause.bind ErrCause.status)))
    let statusMessage :=
      input.statusMessage.or (input.statusText.or ((cause.bind ErrCause.statusMessage).or
        (cause.bind ErrCause.statusText)))
    { message := (input.message.or input.statusMessage).getD ""
      cause := cause
      stack := input.stack
      data :=
        match input.data with
        | some d => if jvalTruthy d then some d else none
        | none => none
      statusCode :=
        match statusCode with
        | some (.num n) => sanitizeStatusCodeInt n 200
        | _ => 500
      statusMessage :=
        match statusMessage with
        | some m => if m ≠ "" then some (sanitizeStatusMessage m) else none
        | none => none
      fatal := (input.fatal.or (cause.bind ErrCause.fatal)).getD false
      unhandled := (input.unhandled.or (cause.bind ErrCause.unhandled)).getD false }

/-! ## JSON.stringify -/

/-- Hexadecimal digit character (lower case), for `\u00XX` escapes. -/
def hexChar (n : Nat) : Char :=
  if n < 10 then Char.ofNat ('0'.toNat + n) else Char.ofNat ('a'.toNat + n - 10)

/-- Escape one character of a JSON string literal as `JSON.stringify`
does. -/
def jsonEscapeChar (c : Char) : List Char :=
  if c = '"' then ['\\', '"']
  else if c = '\\' then ['\\', '\\']
  else if c = '\n' then ['\\', 'n']
  else if c = '\t' then ['\\', 't']
  else if c = '\r' then ['\\', 'r']
  else if c = '\x08' then ['\\', 'b']
  else if c = '\x0c' then ['\\', 'f']
  else if c.toNat < 0x20 then
    ['\\', 'u', '0', '0', hexChar (c.toNat / 16), hexChar (c.toNat % 16)]
  else [c]

/-- A JSON string literal with surrounding quotes. -/
def jsonQuote (s : String) : String :=
  String.mk ('"' :: s.toList.flatMap jsonEscapeChar ++ ['"'])

/-- `n` spaces, for the pretty printer's indentation. -/
def spaces (n : Nat) : String :=
  String.mk (List.replicate n ' ')

mutual

/-- `JSON.stringify(v)` (`pretty = false`) and
`JSON.stringify(v, undefined, 2)` (`pretty = true`, two-space
indentation); `ind` is the current indentation of the enclosing value. -/
def jsonStr (pretty : Bool) (ind : Nat) : JVal → String
  | .null => "null"
  | .bool b => if b then "true" else "false"
  | .num n => toString n
  | .str s => jsonQuote s
  | .arr l =>
    match jsonItems pretty (ind + 2) l with
    | [] => "[]"
    | items =>
      if pretty then
        "[\n" ++ spaces (ind + 2) ++
          String.intercalate (",\n" ++ spaces (ind + 2)) items ++
          "\n" ++ spaces ind ++ "]"
      else "[" ++ String.intercalate "," items ++ "]"
  | .obj l =>
    match jsonMembers pretty (ind + 2) l with
    | [] => "\x7b\x7d"
    | members =>
      if pretty then
        "\x7b\n" ++ spaces (ind + 2) ++
          String.intercalate (",\n" ++ spaces (ind + 2)) members ++
          "\n" ++ spaces ind ++ "\x7d"
      else "\x7b" ++ String.intercalate "," members ++ "\x7d"

/-- Rendered elements of a JSON array. -/
def jsonItems (pretty : Bool) (ind : Nat) : List JVal → List String
  | [] => []
  | v :: rest => jsonStr pretty ind v :: jsonItems pretty ind rest

/-- Rendered members of a JSON object. -/
def jsonMembers (pretty : Bool) (ind : Nat) : List (String × JVal) → List String
  | [] => []
  | (k, v) :: rest =>
    (jsonQuote k ++ (if pretty then ": " else ":") ++ jsonStr pretty ind v) ::
      jsonMembers pretty ind rest

end

/-- Top-level `JSON.stringify` with the debug flag choosing the
two-space-indent pretty mode, as in `prepareResponseBody`. -/
def jsonStringify (pretty : Bool) (v : JVal) : String :=
  jsonStr pretty 0 v

/-! ## Response headers (the `Headers` multimap view used by the event) -/

/-- ASCII lower-casing of one character (header names are
case-insensitive). -/
def asciiLower (c : Char) : Char :=
  if 'A' ≤ c ∧ c ≤ 'Z' then Char.ofNat (c.toNat + 32) else c

/-- ASCII lower-casing of a string. -/
def asciiLowerStr (s : String) : String :=
  String.mk (s.toList.map asciiLower)

/-- Case-insensitive equality of header names. -/
def eqCI (a b : String) : Bool :=
  asciiLowerStr a = asciiLowerStr b

theorem eqCI_refl (a : String) : eqCI a a = true := by
  simp [eqCI]

theorem eqCI_symm {a b : String} (h : eqCI a b = false) : eqCI b a = false := by
  simp only [eqCI, decide_eq_false_iff_not] at h ⊢
  exact fun hb => h hb.symm

theorem eqCI_symm_true {a b : String} (h : eqCI a b = true) : eqCI b a = true := by
  simp only [eqCI, decide_eq_true_eq] at h ⊢
  exact h.symm

theorem eqCI_trans {a b c : String} (h₁ : eqCI a b = true) (h₂ : eqCI a c = false) :
    eqCI b c = false := by
  simp only [eqCI, decide_eq_true_eq, decide_eq_false_iff_not] at h₁ h₂ ⊢
  exact fun hb => h₂ (h₁.trans hb)

/-- A header map: entries in insertion order, names matched
case-insensitively. -/
abbrev HMap := List (String × String)

/-- `headers.get(name)`: the value of the first case-insensitively
matching entry. -/
def lookupH : HMap → String → Option String
  | [], _ => none
  | (k, v) :: rest, n => if eqCI k n then some v else lookupH rest n

/-- `headers.delete(name)`: remove every case-insensitively matching
entry. -/
def removeH : HMap → String → HMap
  | [], _ => []
  | (k, v) :: rest, n => if eqCI k n then removeH rest n else (k, v) :: removeH rest n

/-- `headers.set(name, value)`: replace the first matching entry (dropping
later duplicates), or append when absent. -/
def setH : HMap → String → String → HMap
  | [], n, v => [(n, v)]
  | (k, w) :: rest, n, v =>
    if eqCI k n then (n, v) :: removeH rest n else (k, w) :: setH rest n v

theorem lookupH_removeH_self (h : HMap) (n : String) : lookupH (removeH h n) n = none := by
  induction h with
  | nil => rfl
  | cons p rest ih =>
    by_cases hk : eqCI p.1 n = true
    · simpa [removeH, hk] using ih
    · simp only [Bool.not_eq_true] at hk
      simp [removeH, lookupH, hk, ih]

theorem lookupH_removeH_other (h : HMap) {n n' : String} (hne : eqCI n' n = false) :
    lookupH (removeH h n) n' = lookupH h n' := by
  induction h with
  | nil => rfl
  | cons p rest ih =>
    by_cases hk : eqCI p.1 n = true
    · have : eqCI p.1 n' = false := eqCI_trans (eqCI_symm_true hk) (eqCI_symm hne)
      simp [removeH, lookupH, hk, this, ih]
    · simp only [Bool.not_eq_true] at hk
      simp [removeH, lookupH, hk, ih]

theorem lookupH_setH_self (h : HMap) (n v : String) : lookupH (setH h n v) n = some v := by
  induction h with
  | nil => simp [setH, lookupH, eqCI_refl]
  | cons p rest ih =>
    by_cases hk : eqCI p.1 n = true
    · simp [setH, lookupH, hk, eqCI_refl]
    · simp only [Bool.not_eq_true] at hk
      simp [setH, lookupH, hk, ih]

theorem lookupH_setH_other (h : HMap) {n n' : String} (v : String) (hne : eqCI n' n = false) :
    lookupH (setH h n v) n' = lookupH h n' := by
  induction h with
  | nil => simp [setH, lookupH, eqCI_symm hne]
  | cons p rest ih =>
    by_cases hk : eqCI p.1 n = true
    · have hp : eqCI p.1 n' = false := eqCI_trans (eqCI_symm_true hk) (eqCI_symm hne)
      simp [setH, lookupH, hk, eqCI_symm hne, hp, lookupH_removeH_other rest hne]
    · simp only [Bool.not_eq_true] at hk
      simp [setH, lookupH, hk, ih]

/-! ## `src/event.ts`: the event's mutable response state -/

/-- `WebEventResponse`: `status` / `statusText` are absent until written;
`headers` is `none` until either `setHeader` stores a first entry
(`_headersInit`) or the `headers` getter materialises a (possibly empty)
`Headers` object (`_headers`) — both are truthy in
`prepareResponse`'s `_headers || _headersInit` read, which only
distinguishes "never touched" (`none`) from "present". -/
structure EvResponse where
  status : Option Int := none
  statusText : Option String := none
  headers : Option HMap := none
  deriving DecidableEq, Repr

/-- The slice of `H3WebEvent` that the serialization layer reads: the
request method, the request path (`pathname + queryString`, read by the
404 message), and the mutable response state. -/
structure Event where
  method : String
  path : String
  response : EvResponse
  deriving DecidableEq, Repr

/-- `event.response.setHeader(name, value)`: writes into `_headers` when
materialised, else into `_headersInit` (created on demand). -/
def evSetHeader (ev : Event) (name value : String) : Event :=
  { ev with response :=
    { ev.response with headers := some (setH (ev.response.headers.getD []) name value) } }

/-- `event.response.headers.delete(name)`: the getter materialises the
`Headers` object, then the entry is removed. -/
def evDeleteHeader (ev : Event) (name : String) : Event :=
  { ev with response :=
    { ev.response with headers := some (removeH (ev.response.headers.getD []) name) } }

/-- The `H3Config` slice consulted by serialization: the debug flag. -/
structure Config where
  debug : Bool
  deriving DecidableEq, Repr

/-! ## `src/response.ts` (in `src/adapters.ts`): response serialization -/

/-- A response body (`BodyInit | null | undefined` collapsed to its
observable shapes): `null`/absent, a string, a byte buffer, a byte
stream (a `Blob`'s stream or an SSE readable), or an unknown passthrough
value (the final `return val as BodyInit`). -/
inductive Body where
  | null
  | str (s : String)
  | bytes (b : List Nat)
  | stream
  | other
  deriving DecidableEq, Repr

/-- A prebuilt web `Response` value: status, status text, headers, body. -/
structure WebResponse where
  status : Int := 200
  statusText : String := ""
  headers : HMap := []
  body : Body := .null
  deriving DecidableEq, Repr

/-- The handler-return values distinguished by the type dispatch of
`prepareResponse` / `prepareResponseBody`, as a closed sum (the runtime
`typeof` / `instanceof` checks become constructors). `kHandled` and
`kNotFound` are the two sentinel symbols; `unsendable tname` covers the
`symbol` / `function` case with the `typeof` name that appears in the
error message (note `kHandled` is itself a symbol, so direct calls of
`prepareResponseBody` on it take the unsendable-symbol branch; 
`prepareResponse` intercepts it first). -/
inductive RVal where
  | kHandled
  | response (w : WebResponse)
  | vnull
  | kNotFound
  | str (s : String)
  | bytes (b : List Nat)
  | err (e : ErrInput)
  | json (j : JVal)
  | bigint (n : Int)
  | blob (mime : String) (size : Nat)
  | unsendable (tname : String)
  | other

/-- JavaScript truthiness of an optional string field (`error.stack` in
`config.debug && error.stack`): absent and the empty string are falsy. -/
def jsStrTruthy : Option String → Bool
  | some st => st ≠ ""
  | none => false

/-- The full ECMAScript `trim` whitespace set (*WhiteSpace* and
*LineTerminator*): TAB, LF, VT, FF, CR, SP, NBSP, the Unicode
space-separator category (OGHAM SPACE MARK, U+2000..U+200A, NARROW
NO-BREAK SPACE, MEDIUM MATHEMATICAL SPACE, IDEOGRAPHIC SPACE), LINE and
PARAGRAPH SEPARATOR, and ZERO WIDTH NO-BREAK SPACE. -/
def isJsTrimSpace (c : Char) : Bool :=
  c.toNat = 0x09 ∨ c.toNat = 0x0a ∨ c.toNat = 0x0b ∨ c.toNat = 0x0c ∨
    c.toNat = 0x0d ∨ c.toNat = 0x20 ∨ c.toNat = 0xa0 ∨ c.toNat = 0x1680 ∨
    (0x2000 ≤ c.toNat ∧ c.toNat ≤ 0x200a) ∨ c.toNat = 0x2028 ∨
    c.toNat = 0x2029 ∨ c.toNat = 0x202f ∨ c.toNat = 0x205f ∨
    c.toNat = 0x3000 ∨ c.toNat = 0xfeff

/-- The serialized-error JSON object built inline by
`prepareErrorResponseBody`, as its list of present members in source
order: `JSON.stringify` drops members whose value is `undefined`, so
`statusMessage` / `data` appear only when set on the error and `stack`
only when `config.debug && error.stack` is truthy — the debug flag is on
and the error has a nonempty stack (then as the array of `\n`-split,
trimmed lines). -/
def errorResponsePairs (error : H3ErrorM) (debug : Bool) : List (String × JVal) :=
  [("statusCode", JVal.num error.statusCode)] ++
  (match error.statusMessage with
   | some m => [("statusMessage", JVal.str m)]
   | none => []) ++
  (match error.data with
   | some d => [("data", d)]
   | none => []) ++
  (if debug && jsStrTruthy error.stack then
    match error.stack with
    | some st =>
      [("stack", JVal.arr (((st.splitOn "\n").map fun l => JVal.str (trimJS l))))]
    | none => []
   else [])
where
  /-- JavaScript `String.prototype.trim`: strip the full ECMAScript
  whitespace set from both ends. -/
  trimJS (s : String) : String :=
    String.mk (((s.toList.dropWhile isJsTrimSpace).reverse.dropWhile isJsTrimSpace).reverse)

/-- `prepareErrorResponseBody` (src/response.ts): normalize through
`createError`, write the error's status code / status message into the
event's response state, force the JSON content type, and return the
compact JSON rendering of the error object. -/
def prepareErrorResponseBody (val : ErrInput) (ev : Event) (cfg : Config) : String × Event :=
  let error := createError val
  let ev₁ := { ev with response :=
    { ev.response with status := some error.statusCode, statusText := error.statusMessage } }
  let ev₂ := evSetHeader ev₁ "content-type" "application/json; charset=utf-8"
  (jsonStringify false (JVal.obj (errorResponsePairs error cfg.debug)), ev₂)

/-- `prepareResponseBody` (src/response.ts): the per-type serialization
rules in source order. The function returns the body candidate together
with the event, whose response state it may have mutated. -/
def prepareResponseBody (val : RVal) (ev : Event) (cfg : Config) : Body × Event :=
  match val with
  | .vnull => (.str "", ev)
  | .kNotFound =>
    let msg := "Cannot find any route matching [" ++ ev.method ++ "] " ++ ev.path
    let (body, ev') := prepareErrorResponseBody
      (.obj { statusCode := some (.num 404), statusMessage := some msg }) ev cfg
    (.str body, ev')
  | .str s => (.str s, ev)
  | .bytes b => (.bytes b, evSetHeader ev "content-length" (toString b.length))
  | .err e =>
    let (body, ev') := prepareErrorResponseBody e ev cfg
    (.str body, ev')
  | .json j =>
    let ev' := evSetHeader ev "content-type" "application/json; charset=utf-8"
    (.str (jsonStringify cfg.debug j), ev')
  | .bigint n =>
    let ev' := evSetHeader ev "content-type" "application/json; charset=utf-8"
    (.str (toString n), ev')
  | .response w =>
    let ev₁ := { ev with response :=
      { ev.response with status := some w.status, statusText := some w.statusText } }
    let ev₂ := w.headers.foldl (fun e p => evSetHeader e p.1 p.2) ev₁
    (w.body, ev₂)
  | .blob mime size =>
    let ev₁ := evSetHeader ev "content-type" mime
    let ev₂ := evSetHeader ev₁ "content-length" (toString size)
    (.stream, ev₂)
  | .unsendable tname =>
    let msg := "[h3] Cannot send " ++ tname ++ " as response."
    let (body, ev') := prepareErrorResponseBody
      (.obj { statusCode := some (.num 500), statusMessage := some msg }) ev cfg
    (.str body, ev')
  | .kHandled =>
    let msg := "[h3] Cannot send symbol as response."
    let (body, ev') := prepareErrorResponseBody
      (.obj { statusCode := some (.num 500), statusMessage := some msg }) ev cfg
    (.str body, ev')
  | .other => (.other, ev)

/-- `isNullStatus` (src/response.ts): `status && (status === 100 || ... ||
status === 304)` — an absent (or `0`) status is falsy. -/
def isNullStatusInt (status : Int) : Bool :=
  status = 100 ∨ status = 101 ∨ status = 102 ∨ status = 204 ∨ status = 205 ∨ status = 304

/-- `isNullStatus` on the event's optional status. -/
def isNullStatusO : Option Int → Bool
  | none => false
  | some s => isNullStatusInt s

/-- JavaScript `||` on an optional number (`status || val.status`,
`0` falsy). -/
def orNum (o : Option Int) (d : Int) : Int :=
  match o with
  | some s => if s = 0 then d else s
  | none => d

/-- JavaScript `||` on an optional string (`statusText || val.statusText`,
`""` falsy). -/
def orStr (o : Option String) (d : String) : String :=
  match o with
  | some s => if s = "" then d else s
  | none => d

/-- Falsiness of the event's optional status (`!status`). -/
def falsyNumO : Option Int → Bool
  | none => true
  | some s => s = 0

/-- Falsiness of the event's optional status text (`!statusText`). -/
def falsyStrO : Option String → Bool
  | none => true
  | some s => s = ""

/-- `!status && !statusText && !headers` in `prepareResponse`'s prebuilt
`Response` branch: true when the event carries no response-state override
at all, in which case the prebuilt value passes through unchanged. -/
def evOverrideAbsent (ev : Event) : Bool :=
  falsyNumO ev.response.status && falsyStrO ev.response.statusText &&
    decide (ev.response.headers = none)

/-- The finalized transport response: the `new Response` /
`new SrvxResponse` value, with the constructor's defaults resolved
(status 200 when none was given). -/
structure FinalResp where
  status : Int
  statusText : Option String
  headers : HMap
  body : Body
  deriving DecidableEq, Repr

/-- `prepareResponse` (src/response.ts): the `kHandled` sentinel yields an
empty `new Response(null)`; a prebuilt `Response` is returned unchanged
when the event carries no status/statusText/headers override and is
otherwise re-assembled with the event state winning, the body forced to
`null` on `HEAD` or a null-body event status; every other value goes
through `prepareResponseBody`, and the final body is forced to `null` on
`HEAD` or a null-body status. -/
def prepareResponse (val : RVal) (ev : Event) (cfg : Config) : FinalResp :=
  let isHead := ev.method = "HEAD"
  match val with
  | .kHandled => { status := 200, statusText := none, headers := [], body := .null }
  | .response w =>
    let status := ev.response.status
    let statusText := ev.response.statusText
    let headers := ev.response.headers
    if evOverrideAbsent ev then
      { status := w.status, statusText := some w.statusText, headers := w.headers,
        body := w.body }
    else
      { status := orNum status w.status
        statusText := some (orStr statusText w.statusText)
        headers := headers.getD w.headers
        body := if isHead ∨ isNullStatusO status then .null else w.body }
  | _ =>
    let (body, ev') := prepareResponseBody val ev cfg
    let status := ev'.response.status
    { status := status.getD 200
      statusText := ev'.response.statusText
      headers := ev'.response.headers.getD []
      body := if isHead ∨ isNullStatusO status then .null else body }

/-! ## `src/utils/response.ts`: `noContent` -/

/-- The status code `noContent` finalizes: when no code is passed and the
event already carries a non-200 status, that status is kept; the result
is sanitized with default 204 (`sanitizeStatusCode(code, 204)`). -/
def noContentStatus (ev : Event) (code : Option Int) : Int :=
  let currentStatus := ev.response.status
  let code :=
    if falsyNumO code ∧ ¬ falsyNumO currentStatus ∧ currentStatus ≠ some 200 then
      currentStatus
    else code
  match code with
  | none => 204
  | some n => sanitizeStatusCodeInt n 204

/-- `noContent` (src/utils/response.ts): write the finalized status into
the event; on a final 204 delete any `content-length` header; the body is
the empty string. -/
def noContent (ev : Event) (code : Option Int) : String × Event :=
  let status := noContentStatus ev code
  let ev₁ := { ev with response := { ev.response with status := some status } }
  let ev₂ := if status = 204 then evDeleteHeader ev₁ "content-length" else ev₁
  ("", ev₂)

/-! ## Claim C2 -/

/-- C2, counterexample. The claim states that
`createError({statusCode: 999999}).statusCode === 500`; in the source,
`createError` calls `sanitizeStatusCode(statusCode)` without a default
argument, so the sanitizer's generic default `200` applies and the
resulting status code is `200`, not `500`. -/
theorem c2_createError_999999_counterexample :
    (createError (.obj { statusCode := some (.num 999999) })).statusCode = 200 ∧
      (createError (.obj { statusCode := some (.num 999999) })).statusCode ≠ 500 := by
  constructor <;> decide

/-- C2, amended: for every input object whose `statusCode` field is a
number outside `[100, 999]` (and nonzero — `0` is falsy and skipped by
the sanitizer's own guard, also yielding the default), the error returned
by `createError` has `statusCode` equal to `200`, the generic default of
`sanitizeStatusCode`, because `createError` passes no default of its
own. -/
theorem c2_createError_out_of_range_statusCode (i : ErrObjInput) (n : Int)
    (hsc : i.statusCode = some (.num n)) (hr : n < 100 ∨ n > 999) (h0 : n ≠ 0) :
    (createError (.obj i)).statusCode = 200 := by
  simp [createError, hsc, Option.or, sanitizeStatusCodeInt, h0, hr]

/-- C2 witness: the amended theorem applied at `{statusCode: 999999}`. -/
theorem c2_createError_out_of_range_statusCode_witness :
    (createError (.obj { statusCode := some (.num 999999) })).statusCode = 200 :=
  c2_createError_out_of_range_statusCode { statusCode := some (.num 999999) } 999999
    rfl (by decide) (by decide)

/-! ## Claim C3 -/

/-- C3, counterexample. The claim states that
`createError({statusCode: "404"}).statusCode === 404`; in the source, the
resolved status code is only assigned when
`typeof statusCode === "number"`, so a numeric *string* is ignored and
the error keeps the class default `500`. -/
theorem c3_createError_string_statusCode_counterexample :
    (createError (.obj { statusCode := some (.str "404") })).statusCode = 500 ∧
      (createError (.obj { statusCode := some (.str "404") })).statusCode ≠ 404 := by
  constructor <;> decide

/-- C3, amended: for every input object whose `statusCode` field is a
string, `createError` leaves the status code at the default `500`
(strings fail the `typeof statusCode === "number"` guard); the
string-parsing acceptance the claim describes lives only in
`sanitizeStatusCode` itself, which does parse `"404"` to `404` for any
default. -/
theorem c3_createError_string_statusCode (i : ErrObjInput) (s : String)
    (hsc : i.statusCode = some (.str s)) :
    (createError (.obj i)).statusCode = 500 ∧
      ∀ d : Int, sanitizeStatusCode (some (.str "404")) d = .int 404 := by
  constructor
  · simp [createError, hsc, Option.or]
  · intro d
    simp [sanitizeStatusCode, parseIntJS, parseDigits, parseDigits.parseDigitsAux,
      isDigit10, digitVal, isJsSpace]

/-- C3 witness: the amended theorem applied at `{statusCode: "404"}` and
default `200`. -/
theorem c3_createError_string_statusCode_witness :
    (createError (.obj { statusCode := some (.str "404") })).statusCode = 500 ∧
      ∀ d : Int, sanitizeStatusCode (some (.str "404")) d = .int 404 :=
  c3_createError_string_statusCode { statusCode := some (.str "404") } "404" rfl

/-! ## Claim C8 -/

/-- Member lookup in a serialized JSON object (`JSON.parse(body).key`):
object keys are compared exactly. -/
def lookupPair : List (String × JVal) → String → Option JVal
  | [], _ => none
  | (k, v) :: rest, n => if k = n then some v else lookupPair rest n

/-- C8: for every error value serialized into a response body by
`prepareErrorResponseBody`, the body is the JSON rendering of the
`errorResponsePairs` object, which contains `statusCode` always,
`statusMessage` and `data` exactly when the normalized error carries
them, never the error's internal `message`, and `stack` iff
`config.debug && error.stack` is truthy — the debug flag is set and the
error's stack is present and nonempty — in which case its value is the
array of trimmed `\n`-split lines. -/
theorem c8_error_body_shape (val : ErrInput) (ev : Event) (cfg : Config) :
    (prepareErrorResponseBody val ev cfg).1 =
      jsonStringify false (JVal.obj (errorResponsePairs (createError val) cfg.debug)) ∧
    lookupPair (errorResponsePairs (createError val) cfg.debug) "message" = none ∧
    lookupPair (errorResponsePairs (createError val) cfg.debug) "statusCode" =
      some (JVal.num (createError val).statusCode) ∧
    lookupPair (errorResponsePairs (createError val) cfg.debug) "statusMessage" =
      (createError val).statusMessage.map JVal.str ∧
    lookupPair (errorResponsePairs (createError val) cfg.debug) "data" =
      (createError val).data ∧
    ((lookupPair (errorResponsePairs (createError val) cfg.debug) "stack").isSome ↔
      (cfg.debug = true ∧ jsStrTruthy (createError val).stack = true)) ∧
    (∀ st : String, (createError val).stack = some st → st ≠ "" → cfg.debug = true →
      lookupPair (errorResponsePairs (createError val) cfg.debug) "stack" =
        some (JVal.arr ((st.splitOn "\n").map fun l =>
          JVal.str (errorResponsePairs.trimJS l)))) := by
  refine ⟨rfl, ?_⟩
  rcases hsm : (createError val).statusMessage with _ | m <;>
    rcases hd : (createError val).data with _ | d <;>
    rcases hdbg : cfg.debug with _ | _ <;>
    rcases hst : (createError val).stack with _ | st <;>
    simp [errorResponsePairs, lookupPair, jsStrTruthy, hsm, hd, hdbg, hst]
  all_goals (by_cases hse : st = "" <;> simp [lookupPair, hse])

/-- A concrete error input for the C8 witness: status message, data
payload and a two-line stack. -/
def c8input : ErrObjInput :=
  { statusMessage := some "Boom"
    data := some (.num 1)
    stack := some "a\n b" }

/-- A concrete event for the C8 witness. -/
def c8event : Event :=
  { method := "GET", path := "/x", response := {} }

/-- C8 witness: the shape theorem applied to a concrete error input with a
status message, a data payload and a nonempty stack, in debug mode. -/
theorem c8_error_body_shape_witness :
    (prepareErrorResponseBody (.obj c8input) c8event { debug := true }).1 =
      jsonStringify false (JVal.obj (errorResponsePairs (createError (.obj c8input)) true)) ∧
    lookupPair (errorResponsePairs (createError (.obj c8input)) true) "message" = none ∧
    lookupPair (errorResponsePairs (createError (.obj c8input)) true) "statusCode" =
      some (JVal.num (createError (.obj c8input)).statusCode) ∧
    lookupPair (errorResponsePairs (createError (.obj c8input)) true) "statusMessage" =
      (createError (.obj c8input)).statusMessage.map JVal.str ∧
    lookupPair (errorResponsePairs (createError (.obj c8input)) true) "data" =
      (createError (.obj c8input)).data ∧
    ((lookupPair (errorResponsePairs (createError (.obj c8input)) true) "stack").isSome ↔
      (true = true ∧ jsStrTruthy (createError (.obj c8input)).stack = true)) ∧
    (∀ st : String, (createError (.obj c8input)).stack = some st → st ≠ "" → true = true →
      lookupPair (errorResponsePairs (createError (.obj c8input)) true) "stack" =
        some (JVal.arr ((st.splitOn "\n").map fun l =>
          JVal.str (errorResponsePairs.trimJS l)))) :=
  c8_error_body_shape (.obj c8input) c8event { debug := true }

/-! ## Claim C9 -/

/-- A concrete event whose response headers already carry
`content-length: 1`. -/
def c9event : Event :=
  { method := "GET"
    path := "/"
    response := { headers := some [("content-length", "1")] } }

/-- C9, counterexample. The claim states that the binary-buffer rule sets
`content-length` only when absent and leaves a previously set value
unchanged; the source calls
`event.response.setHeader("content-length", val.byteLength.toString())`
unconditionally, so a preexisting `content-length: 1` is overwritten with
the buffer length `3`. -/
theorem c9_bytes_overwrites_counterexample :
    lookupH ((prepareResponseBody (.bytes [0, 0, 0]) c9event
        { debug := false }).2.response.headers.getD []) "content-length" = some "3" ∧
      ¬ lookupH ((prepareResponseBody (.bytes [0, 0, 0]) c9event
        { debug := false }).2.response.headers.getD []) "content-length" = some "1" := by
  constructor <;> decide

/-- C9, amended: the binary-buffer rule returns the buffer as the body and
always sets `content-length` from its byte length, overwriting any
previous value; every other response header, the response status, status
text and the request facets are left unchanged. -/
theorem c9_bytes_rule (ev : Event) (cfg : Config) (b : List Nat) :
    (prepareResponseBody (.bytes b) ev cfg).1 = .bytes b ∧
    lookupH ((prepareResponseBody (.bytes b) ev cfg).2.response.headers.getD [])
      "content-length" = some (toString b.length) ∧
    (∀ n : String, eqCI n "content-length" = false →
      lookupH ((prepareResponseBody (.bytes b) ev cfg).2.response.headers.getD []) n =
        lookupH (ev.response.headers.getD []) n) ∧
    (prepareResponseBody (.bytes b) ev cfg).2.response.status = ev.response.status ∧
    (prepareResponseBody (.bytes b) ev cfg).2.response.statusText = ev.response.statusText ∧
    (prepareResponseBody (.bytes b) ev cfg).2.method = ev.method ∧
    (prepareResponseBody (.bytes b) ev cfg).2.path = ev.path := by
  refine ⟨rfl, ?_, ?_, rfl, rfl, rfl, rfl⟩
  · simp [prepareResponseBody, evSetHeader, lookupH_setH_self]
  · intro n hn
    simp [prepareResponseBody, evSetHeader, lookupH_setH_other _ _ hn]

/-- C9 witness: the amended rule applied to the two-byte buffer `[7, 8]`
on an event with one unrelated header. -/
theorem c9_bytes_rule_witness :
    (prepareResponseBody (.bytes [7, 8]) c9event { debug := false }).1 = .bytes [7, 8] ∧
    lookupH ((prepareResponseBody (.bytes [7, 8]) c9event
        { debug := false }).2.response.headers.getD []) "content-length" =
      some (toString (List.length [7, 8])) ∧
    (∀ n : String, eqCI n "content-length" = false →
      lookupH ((prepareResponseBody (.bytes [7, 8]) c9event
          { debug := false }).2.response.headers.getD []) n =
        lookupH (c9event.response.headers.getD []) n) ∧
    (prepareResponseBody (.bytes [7, 8]) c9event
        { debug := false }).2.response.status = c9event.response.status ∧
    (prepareResponseBody (.bytes [7, 8]) c9event
        { debug := false }).2.response.statusText = c9event.response.statusText ∧
    (prepareResponseBody (.bytes [7, 8]) c9event { debug := false }).2.method =
      c9event.method ∧
    (prepareResponseBody (.bytes [7, 8]) c9event { debug := false }).2.path =
      c9event.path :=
  c9_bytes_rule c9event { debug := false } [7, 8]

/-! ## Claim C5 -/

/-- A concrete event carrying status 204 and a `content-length: 5` header
set earlier in the pipeline. -/
def c5event : Event :=
  { method := "GET"
    path := "/"
    response := { status := some 204, headers := some [("content-length", "5")] } }

/-- C5, counterexample. The claim states that serialization removes a
previously set `content-length` header before finalizing a 204 response;
`prepareResponse` nulls the body for 204 but never touches the headers,
so the finalized response still carries `content-length: 5`. -/
theorem c5_prepareResponse_keeps_content_length_counterexample :
    (prepareResponse (.str "hello") c5event { debug := false }).status = 204 ∧
      lookupH (prepareResponse (.str "hello") c5event { debug := false }).headers
        "content-length" = some "5" := by
  constructor <;> decide

/-- C5, amended: `prepareResponse` never removes `content-length` on a 204
response (it only nulls the body); the removal the spec describes is
performed by the `noContent` helper, which deletes `content-length` from
the event's response headers whenever the status it finalizes is 204. -/
theorem c5_noContent_removes_content_length (ev : Event) (code : Option Int)
    (h : (noContent ev code).2.response.status = some 204) :
    lookupH ((noContent ev code).2.response.headers.getD []) "content-length" = none := by
  simp only [noContent] at h ⊢
  by_cases hs : noContentStatus ev code = 204
  · rw [if_pos hs]
    simp [evDeleteHeader, lookupH_removeH_self]
  · rw [if_neg hs] at h
    simp only [EvResponse.status, Option.some.injEq] at h
    exact absurd h hs

/-- A concrete event for the C5 witness: no status yet, a
`content-length` header already set. -/
def c5inEvent : Event :=
  { method := "GET"
    path := "/"
    response := { headers := some [("content-length", "7")] } }

/-- C5 witness: `noContent` with no explicit code finalizes status 204 on
this event and removes its `content-length` header. -/
theorem c5_noContent_removes_content_length_witness :
    (noContent c5inEvent none).2.response.status = some 204 ∧
      lookupH ((noContent c5inEvent none).2.response.headers.getD []) "content-length" =
        none :=
  ⟨by decide, c5_noContent_removes_content_length c5inEvent none (by decide)⟩

/-! ## Claim C4 -/

/-- The platform invariant of prebuilt `Response` values inside a handler
return value: the `Response` constructor itself throws on a non-null body
with a null-body status, so a well-formed prebuilt response with a
null-body status has a null body. Non-`Response` values are
unconstrained. -/
def respWellFormedB : RVal → Bool
  | .response w => !isNullStatusInt w.status || decide (w.body = Body.null)
  | _ => true

/-- The configurations in which `prepareResponse` returns the handler's
prebuilt `Response` unchanged: the value is a `Response` and the event
carries no status/statusText/headers override. -/
def isResponsePassthrough (val : RVal) (ev : Event) : Bool :=
  match val with
  | .response _ => evOverrideAbsent ev
  | _ => false

/-- The final body override of the general `prepareResponse` branch: a
`HEAD` method or a null-body status forces the body to `null`. -/
theorem nullbody_final (m : String) (st : Option Int) (b : Body) :
    (isNullStatusInt (st.getD 200) = true →
      (if m = "HEAD" ∨ isNullStatusO st = true then Body.null else b) = Body.null) ∧
    (m = "HEAD" →
      (if m = "HEAD" ∨ isNullStatusO st = true then Body.null else b) = Body.null) := by
  constructor
  · intro h
    rcases st with _ | s
    · exact absurd h (by decide)
    · have : isNullStatusO (some s) = true := h
      rw [if_pos (Or.inr this)]
  · intro hm
    rw [if_pos (Or.inl hm)]

/-- C4, amended: for every handler return value (with prebuilt `Response`
values well-formed in the platform sense) and every event, the final
response of `prepareResponse` has a null body whenever its finalized
status is a null-body status (100, 101, 102, 204, 205, 304), and whenever
the request method is `HEAD` — except in the passthrough case, where the
value is a prebuilt `Response` and the event carries no response-state
override: there the `Response` is returned unchanged, body included, even
for `HEAD`. -/
theorem c4_null_body_statuses (val : RVal) (ev : Event) (cfg : Config)
    (hwf : respWellFormedB val = true) :
    (isNullStatusInt (prepareResponse val ev cfg).status = true →
      (prepareResponse val ev cfg).body = Body.null) ∧
    (ev.method = "HEAD" → isResponsePassthrough val ev = false →
      (prepareResponse val ev cfg).body = Body.null) := by
  cases val
  case kHandled => exact ⟨fun _ => rfl, fun _ _ => rfl⟩
  case response w =>
    simp only [respWellFormedB, Bool.or_eq_true, Bool.not_eq_true', decide_eq_true_eq] at hwf
    simp only [prepareResponse, isResponsePassthrough]
    by_cases hpa : evOverrideAbsent ev = true
    · rw [if_pos hpa]
      refine ⟨fun h => ?_, fun _ hcontra => absurd hpa (by simp [hcontra])⟩
      rcases hwf with hw | hw
      · exact absurd h (by simp [hw])
      · exact hw
    · rw [if_neg hpa]
      refine ⟨fun h => ?_, fun hm _ => ?_⟩
      · by_cases hc : ev.method = "HEAD" ∨ isNullStatusO ev.response.status = true
        · simp only [FinalResp.body, if_pos hc]
        · simp only [FinalResp.body, if_neg hc]
          simp only [FinalResp.status] at h
          push_neg at hc
          rcases hst : ev.response.status with _ | s
          · rw [hst] at h
            simp only [orNum] at h
            rcases hwf with hw | hw
            · exact absurd h (by simp [hw])
            · exact hw
          · rw [hst] at h
            simp only [orNum] at h
            by_cases hz : s = 0
            · rw [if_pos hz] at h
              rcases hwf with hw | hw
              · exact absurd h (by simp [hw])
              · exact hw
            · rw [if_neg hz] at h
              exfalso
              apply hc.2
              rw [hst]
              exact h
      · simp only [FinalResp.body]
        rw [if_pos (Or.inl hm)]
  all_goals {
    simp only [prepareResponse]
    rcases hpp : prepareResponseBody _ ev cfg with ⟨b, ev₂⟩
    exact ⟨fun h => (nullbody_final ev.method ev₂.response.status b).1 h,
      fun hm _ => (nullbody_final ev.method ev₂.response.status b).2 hm⟩
  }

/-- A concrete `HEAD` event with no response-state override. -/
def c4event : Event :=
  { method := "HEAD", path := "/", response := {} }

/-- A concrete prebuilt 200 `Response` with body `"x"`. -/
def c4resp : WebResponse :=
  { status := 200, statusText := "", headers := [], body := .str "x" }

/-- C4, counterexample. The claim states that a `HEAD` request always
yields a null body regardless of which rule produced it; when the handler
returns a prebuilt `Response` and the event carries no override,
`prepareResponse` returns the `Response` unchanged, so a `HEAD` request
keeps the body `"x"`. -/
theorem c4_head_passthrough_counterexample :
    c4event.method = "HEAD" ∧
      (prepareResponse (.response c4resp) c4event { debug := false }).body = Body.str "x" ∧
      ¬ (prepareResponse (.response c4resp) c4event { debug := false }).body = Body.null := by
  refine ⟨rfl, ?_, ?_⟩ <;> decide

/-- A concrete event with status 204 for the C4 witness. -/
def c4wev : Event :=
  { method := "GET", path := "/", response := { status := some 204 } }

/-- C4 witness: the amended theorem applied to a string value on an event
whose status is 204. -/
theorem c4_null_body_statuses_witness :
    respWellFormedB (.str "hi") = true ∧
      ((isNullStatusInt (prepareResponse (.str "hi") c4wev { debug := false }).status = true →
          (prepareResponse (.str "hi") c4wev { debug := false }).body = Body.null) ∧
        (c4wev.method = "HEAD" →
          isResponsePassthrough (.str "hi") c4wev = false →
          (prepareResponse (.str "hi") c4wev { debug := false }).body = Body.null)) :=
  ⟨by decide, c4_null_body_statuses (.str "hi") c4wev { debug := false } (by decide)⟩

/-! ## `src/handler.ts`: handler composition (claim C6) -/

/-- `T | T[] | undefined`, the accepted shapes of the `onRequest` /
`onBeforeResponse` fields of an `EventHandlerObject`. -/
inductive ArrOr (α : Type) where
  | none
  | one (a : α)
  | many (l : List α)

/-- `_normalizeArray` (src/handler.ts):
`input ? (Array.isArray(input) ? input : [input]) : undefined` (a
function value or an array — even an empty one — is truthy). -/
def normalizeArray {α : Type} : ArrOr α → Option (List α)
  | .none => Option.none
  | .one a => some [a]
  | .many l => some l

/-- An async step mutating the event is embedded as a state transition on
an abstract state `σ` (the strict `await` sequencing of the source makes
one invocation a sequential composition of such transitions). A
pre-request hook is `σ → σ`; the terminal handler returns the settled
body `β` alongside the state; a pre-response hook receives the `{ body }`
container and may reassign it, modelled as returning the new body. -/
def runRequestHooksList {σ : Type} : List (σ → σ) → σ → σ
  | [], s => s
  | h :: hs, s => runRequestHooksList hs (h s)

/-- `if (hooks.onRequest) { for ... }`: skip when the hook list is
absent. -/
def runRequestHooks {σ : Type} (hooks : Option (List (σ → σ))) (s : σ) : σ :=
  match hooks with
  | Option.none => s
  | some l => runRequestHooksList l s

/-- The `onBeforeResponse` loop: each hook gets the event state and the
current `{ body }` content, in list order. -/
def runResponseHooksList {σ β : Type} : List (σ → β → σ × β) → σ → β → σ × β
  | [], s, b => (s, b)
  | h :: hs, s, b =>
    match h s b with
    | (s', b') => runResponseHooksList hs s' b'

/-- `if (hooks.onBeforeResponse) { for ... }`: skip when the hook list is
absent. -/
def runResponseHooks {σ β : Type} (hooks : Option (List (σ → β → σ × β)))
    (s : σ) (b : β) : σ × β :=
  match hooks with
  | Option.none => (s, b)
  | some l => runResponseHooksList l s b

/-- `_callHandler` (src/handler.ts): run every `onRequest` hook in list
order, run the terminal handler, seed the `{ body }` container with its
settled value, run every `onBeforeResponse` hook in list order, and
return the container's final body (with the final state). -/
def callHandler {σ β : Type} (onRequest : Option (List (σ → σ)))
    (handler : σ → σ × β) (onBeforeResponse : Option (List (σ → β → σ × β)))
    (s : σ) : σ × β :=
  let s₁ := runRequestHooks onRequest s
  match handler s₁ with
  | (s₂, body) => runResponseHooks onBeforeResponse s₂ body

/-- The object form of `defineEventHandler` (src/handler.ts): the wrapper
closes over the normalized hook lists and calls `_callHandler` (the
`resolve` / `websocket` forwarding does not affect an invocation and is
not modelled). -/
def defineEventHandlerObj {σ β : Type} (onRequest : ArrOr (σ → σ))
    (handler : σ → σ × β) (onBeforeResponse : ArrOr (σ → β → σ × β)) : σ → σ × β :=
  fun s => callHandler (normalizeArray onRequest) handler (normalizeArray onBeforeResponse) s

/-- C6: a composed handler with pre-request hooks `[A, B]`, terminal
handler `H` and pre-response hooks `[X, Y]` runs exactly
`A, B, H, X, Y` in that order, each step completing before the next
starts — one invocation is literally the sequential composition, with the
`{ body }` container seeded by `H`'s settled value, threaded through `X`
then `Y`, and returned; in particular a reassignment of `body` by `X` is
the value `Y` observes, and the handler's return value is the container's
body after `Y`. The second conjunct witnesses the order and the
observation concretely: with trace-appending hooks the trace is
`["A", "B", "H", "X", "Y"]`, `Y` sees the body `X` assigned, and the
final return value is the body `Y` left. -/
theorem c6_composition_order :
    (∀ (σ β : Type) (A B : σ → σ) (H : σ → σ × β) (X Y : σ → β → σ × β) (s : σ),
      defineEventHandlerObj (.many [A, B]) H (.many [X, Y]) s =
        (match H (B (A s)) with
         | (s₂, b₀) =>
           match X s₂ b₀ with
           | (s₃, b₁) => Y s₃ b₁)) ∧
    (defineEventHandlerObj
        (σ := List String) (β := String)
        (.many [fun t => t ++ ["A"], fun t => t ++ ["B"]])
        (fun t => (t ++ ["H"], "from-H"))
        (.many [fun t _ => (t ++ ["X"], "from-X"), fun t b => (t ++ ["Y"], b ++ "+Y")])
        [] =
      (["A", "B", "H", "X", "Y"], "from-X+Y")) := by
  constructor
  · intro σ β A B H X Y s
    simp only [defineEventHandlerObj, callHandler, normalizeArray, runRequestHooks,
      runRequestHooksList]
    rcases H (B (A s)) with ⟨s₂, b₀⟩
    rcases hX : X s₂ b₀ with ⟨s₃, b₁⟩
    simp [runResponseHooks, runResponseHooksList, hX]
  · rfl

/-! ## `src/utils/internal/event-stream.ts`: the SSE `EventStream`
(claims C7, C10) -/

/-- An SSE message (`EventStreamMessage`): `id` / `event` are optional
strings (the source tests them for truthiness, so the empty string
behaves like an absent field and both collapse to one `String`); `retry`
is present only as an integer (`typeof retry === "number" &&
Number.isInteger(retry)`); `data` is the message payload. -/
structure SseMessage where
  id : String := ""
  event : String := ""
  retry : Option Int := none
  data : String := ""
  deriving DecidableEq, Repr

/-- The lines of one serialized SSE message before its blank-line
terminator (`formatEventStreamMessage` without the final `\n`): an
`id:` / `event:` / `retry:` line per present field, then the `data:`
line. Payloads are `List Char` so that list lemmas apply. -/
def sseMessageLines (m : SseMessage) : List Char :=
  (if m.id ≠ "" then "id: ".toList ++ m.id.toList ++ ['\n'] else []) ++
  (if m.event ≠ "" then "event: ".toList ++ m.event.toList ++ ['\n'] else []) ++
  (match m.retry with
   | some r => "retry: ".toList ++ (toString r).toList ++ ['\n']
   | none => []) ++
  ("data: ".toList ++ m.data.toList ++ ['\n'])

/-- `formatEventStreamMessage`: the message lines terminated by a blank
line (the `data:` line's `\n` followed by this one). -/
def formatMessage (m : SseMessage) : List Char :=
  sseMessageLines m ++ ['\n']

/-- `formatEventStreamMessages`: the concatenation of the serialized
messages in order. -/
def formatMessages : List SseMessage → List Char
  | [] => []
  | m :: rest => formatMessage m ++ formatMessages rest

/-- The `EventStream` state observed by `push` / `pause` / `resume` /
`flush` / `close`: the writer-closed, paused, disposed and handled flags,
the pending buffer `_unsentData` (`none` = `undefined`), and the log of
payloads written to the underlying writer, in order (each `write` call
appends one entry; the model takes writes to succeed — the source
swallows write failures). -/
structure SseState where
  writerClosed : Bool := false
  paused : Bool := false
  unsentData : Option (List Char) := none
  disposed : Bool := false
  handled : Bool := false
  writes : List (List Char) := []
  deriving DecidableEq, Repr

/-- The shared body of `_sendEvent` / `_sendEvents` after the payload is
formatted: closed writer — do nothing; paused with a falsy buffer
(`undefined` or `""`) — start the buffer with the payload; paused
otherwise — append to the buffer; else write immediately. -/
def sseSendPayload (s : SseState) (payload : List Char) : SseState :=
  if s.writerClosed then s
  else if s.paused ∧ (s.unsentData = none ∨ s.unsentData = some []) then
    { s with unsentData := some payload }
  else if s.paused then
    { s with unsentData := some (s.unsentData.getD [] ++ payload) }
  else
    { s with writes := s.writes ++ [payload] }

/-- `_sendEvent`: format one message and dispatch it. -/
def sseSendEvent (s : SseState) (m : SseMessage) : SseState :=
  sseSendPayload s (formatMessage m)

/-- `_sendEvents`: format a whole batch into one payload and dispatch
it. -/
def sseSendEvents (s : SseState) (ms : List SseMessage) : SseState :=
  sseSendPayload s (formatMessages ms)

/-- The four runtime shapes accepted by `push`: a string, a string array,
a message object, a message array. -/
inductive PushArg where
  | str (d : String)
  | strList (l : List String)
  | msg (m : SseMessage)
  | msgList (l : List SseMessage)

/-- `EventStream.push`: a string becomes `{ data }`; an empty array is an
early return; a string array is mapped to `{ data }` messages and sent as
one batch; a message array is sent as one batch; a message object is sent
alone. -/
def ssePush (s : SseState) : PushArg → SseState
  | .str d => sseSendEvent s { data := d }
  | .strList l =>
    if l = [] then s
    else sseSendEvents s (l.map fun d => { data := d })
  | .msg m => sseSendEvent s m
  | .msgList l =>
    if l = [] then s
    else sseSendEvents s l

/-- `EventStream.pause`: set the paused flag. -/
def ssePause (s : SseState) : SseState :=
  { s with paused := true }

/-- `EventStream.flush`: when the writer is open and the pending buffer
is non-empty (`this._unsentData?.length`), write it as one payload and
clear it. -/
def sseFlush (s : SseState) : SseState :=
  if s.writerClosed then s
  else
    match s.unsentData with
    | some u => if u ≠ [] then { s with writes := s.writes ++ [u], unsentData := none } else s
    | none => s

/-- `EventStream.resume`: clear the paused flag, then flush. -/
def sseResume (s : SseState) : SseState :=
  sseFlush { s with paused := false }

/-- A sequence of single-message `push` calls, in order. -/
def ssePushAll (s : SseState) : List SseMessage → SseState
  | [] => s
  | m :: rest => ssePushAll (sseSendEvent s m) rest

/-- One paused push on an open stream only grows the pending buffer: the
three buffer branches of `_sendEvent` collapse to appending to the
(possibly empty) buffer. -/
theorem sseSendEvent_paused (s : SseState) (m : SseMessage)
    (hp : s.paused = true) (hc : s.writerClosed = false) :
    sseSendEvent s m =
      { s with unsentData := some (s.unsentData.getD [] ++ formatMessage m) } := by
  simp only [sseSendEvent, sseSendPayload, hp, hc]
  rcases hu : s.unsentData with _ | u
  · simp
  · rcases u with _ | ⟨c, u'⟩
    · simp
    · simp

/-- A sequence of paused pushes on an open stream performs no write and
appends the serialized payloads, in push order, to the pending buffer. -/
theorem ssePushAll_paused (msgs : List SseMessage) (s : SseState)
    (hp : s.paused = true) (hc : s.writerClosed = false) (hne : msgs ≠ []) :
    ssePushAll s msgs =
      { s with unsentData := some (s.unsentData.getD [] ++ formatMessages msgs) } := by
  induction msgs generalizing s with
  | nil => exact absurd rfl hne
  | cons m rest ih =>
    rcases hrest : rest with _ | ⟨m', rest'⟩
    · simp only [ssePushAll, sseSendEvent_paused s m hp hc, formatMessages]
      simp
    · rw [← hrest]
      have hrne : rest ≠ [] := by simp [hrest]
      simp only [ssePushAll, sseSendEvent_paused s m hp hc]
      rw [ih { s with unsentData := some (s.unsentData.getD [] ++ formatMessage m) }
        hp hc hrne]
      simp [formatMessages, List.append_assoc]

/-- A serialized message is never empty (it ends with its blank-line
terminator). -/
theorem formatMessage_ne_nil (m : SseMessage) : formatMessage m ≠ [] := by
  simp [formatMessage]

/-- A nonempty batch serializes to a nonempty payload. -/
theorem formatMessages_ne_nil (msgs : List SseMessage) (hne : msgs ≠ []) :
    formatMessages msgs ≠ [] := by
  rcases msgs with _ | ⟨m, rest⟩
  · exact absurd rfl hne
  · simp [formatMessages, formatMessage]

/-! ## Claim C7 -/

/-- C7, amended: on a paused, open SSE stream with an empty pending
buffer, pushing at least one message performs no write and accumulates
the serialized payloads in push order in the single pending buffer; the
subsequent `resume()` clears the paused flag and performs exactly one
write whose payload is the concatenation of all buffered serialized
messages in push order (each message terminated by a blank line, by
definition of `formatMessage`), leaving the pending buffer empty. -/
theorem c7_paused_push_then_resume (msgs : List SseMessage) (s : SseState)
    (hp : s.paused = true) (hc : s.writerClosed = false)
    (hbuf : s.unsentData = none) (hne : msgs ≠ []) :
    (ssePushAll s msgs).writes = s.writes ∧
    (ssePushAll s msgs).unsentData = some (formatMessages msgs) ∧
    (sseResume (ssePushAll s msgs)).paused = false ∧
    (sseResume (ssePushAll s msgs)).writes = s.writes ++ [formatMessages msgs] ∧
    (sseResume (ssePushAll s msgs)).unsentData = none := by
  rw [ssePushAll_paused msgs s hp hc hne]
  have hfne : formatMessages msgs ≠ [] := formatMessages_ne_nil msgs hne
  simp [sseResume, sseFlush, hbuf, hc, hfne]

/-- C7, counterexample for the claim as stated. For the empty message
sequence ("any number of messages" includes zero), `resume()` performs no
write at all — `flush` skips the absent buffer — while the claim requires
exactly one write. -/
theorem c7_zero_messages_counterexample :
    (sseResume (ssePushAll { paused := true } [])).writes = [] ∧
      ¬ (sseResume (ssePushAll { paused := true } [])).writes.length = 1 := by
  constructor <;> decide

/-- The three-message batch of the spec's own test. -/
def c7msgs : List SseMessage :=
  [{ data := "one" }, { data := "two" }, { data := "three" }]

/-- C7 witness: the amended theorem applied to a fresh paused stream and
three pushed messages. -/
theorem c7_paused_push_then_resume_witness :
    (ssePushAll { paused := true } c7msgs).writes = SseState.writes { paused := true } ∧
    (ssePushAll { paused := true } c7msgs).unsentData = some (formatMessages c7msgs) ∧
    (sseResume (ssePushAll { paused := true } c7msgs)).paused = false ∧
    (sseResume (ssePushAll { paused := true } c7msgs)).writes =
      SseState.writes { paused := true } ++ [formatMessages c7msgs] ∧
    (sseResume (ssePushAll { paused := true } c7msgs)).unsentData = none :=
  c7_paused_push_then_resume c7msgs { paused := true } rfl rfl rfl (by decide)

/-! ## Claim C10 -/

/-- C10: `push` with an empty array (of strings or of message objects) is
a complete no-op: the stream state — pending buffer, paused flag,
closed/disposed/handled flags and the write log — is returned exactly
unchanged, and no write is attempted. -/
theorem c10_push_empty_array_noop (s : SseState) :
    ssePush s (.strList []) = s ∧ ssePush s (.msgList []) = s := by
  constructor <;> simp [ssePush]

/-! ## `src/event.ts`: the `pathname` fast path (claim C1) -/

/-- Is `pat` a prefix of the list? -/
def isPrefixL : List Char → List Char → Bool
  | [], _ => true
  | _ :: _, [] => false
  | p :: ps, c :: cs => p == c && isPrefixL ps cs

/-- Split a list at the first occurrence of the substring `pat`
(`indexOf` semantics): `some (before, after)` with the occurrence itself
dropped, `none` when the substring does not occur. -/
def splitFirstSub (pat : List Char) : List Char → Option (List Char × List Char)
  | [] => if pat = [] then some ([], []) else none
  | c :: rest =>
    if isPrefixL pat (c :: rest) then some ([], (c :: rest).drop pat.length)
    else
      match splitFirstSub pat rest with
      | some (pre, after) => some (c :: pre, after)
      | none => none

/-- Split a list at the first character satisfying `p` (`indexOf`
semantics for a single character or character class). -/
def splitFirstP (p : Char → Bool) : List Char → Option (List Char × Char × List Char)
  | [] => none
  | c :: rest =>
    if p c then some ([], c, rest)
    else
      match splitFirstP p rest with
      | some (pre, d, after) => some (c :: pre, d, after)
      | none => none

/-- Not a question mark (the `url.indexOf("?", pIndex)` scan). -/
def notQ (c : Char) : Bool := !(c == '?')

/-- The `pathname` getter's fast path (src/event.ts, `H3WebEvent`):
locate the first `"://"`; search for the next `/` starting at
`protoIndex + 4` (one character past the first character after the scheme
separator); slice from that `/` up to the next `?` (or the end). `none`
models the two fallbacks to the full URL parse (`protoIndex === -1` and
`pIndex === -1`). -/
def fastPathname (url : String) : Option String :=
  match splitFirstSub [':', '/', '/'] url.toList with
  | none => none
  | some (_, after) =>
    match after with
    | [] => none
    | _ :: tail =>
      match splitFirstP (fun c => c == '/') tail with
      | none => none
      | some (_, _, rest) => some (String.mk ('/' :: rest.takeWhile notQ))

/-- ASCII letter. -/
def isAsciiAlpha (c : Char) : Bool :=
  ('a' ≤ c ∧ c ≤ 'z') ∨ ('A' ≤ c ∧ c ≤ 'Z')

/-- A non-initial character of a URL scheme: ASCII alphanumeric, `+`, `-`
or `.`. -/
def schemeRestChar (c : Char) : Bool :=
  isAsciiAlpha c || isDigit10 c || c == '+' || c == '-' || c == '.'

/-- A valid URL scheme: an ASCII letter followed by scheme characters. -/
def validScheme : List Char → Bool
  | [] => false
  | c :: rest => isAsciiAlpha c && rest.all schemeRestChar

/-- The special WHATWG schemes other than `file` (the modelled fragment
of the full parser). -/
def isSpecialNonFileScheme (s : List Char) : Bool :=
  s = "http".toList ∨ s = "https".toList ∨ s = "ws".toList ∨
    s = "wss".toList ∨ s = "ftp".toList

/-- A slash or backslash (WHATWG treats `\` like `/` for special
schemes). -/
def slashOrBack (c : Char) : Bool := c == '/' || c == '\\'

/-- A character ending the authority of a special-scheme URL. -/
def isAuthorityEnd (c : Char) : Bool :=
  c == '/' || c == '\\' || c == '?' || c == '#'

/-- The sublist after the last occurrence of `ch` (the whole list when
`ch` does not occur): userinfo is everything up to the last `@`. -/
def afterLastAt (ch : Char) (l : List Char) : List Char :=
  (l.reverse.takeWhile fun c => !(c == ch)).reverse

/-- A host character accepted by the modelled fragment of the parser:
ASCII alphanumeric, `-`, `.` or `_` (hosts needing IDNA mapping,
IPv6 brackets or percent-decoding are outside the model and make
`urlPathname` return `none`). -/
def hostCharOk (c : Char) : Bool :=
  isAsciiAlpha c || isDigit10 c || c == '-' || c == '.' || c == '_'

/-- A nonempty host made of modelled host characters. -/
def hostOk (host : List Char) : Bool :=
  !(host.isEmpty) && host.all hostCharOk

/-- A valid (possibly absent) port: empty, or `:` followed by decimal
digits. -/
def portOk : List Char → Bool
  | [] => true
  | c :: ds => c == ':' && ds.all isDigit10

/-- Neither `?` nor `#` (the path state consumes up to the query or
fragment delimiter). -/
def notQH (c : Char) : Bool := !(c == '?') && !(c == '#')

/-- A character the WHATWG path percent-encode set forces to be
percent-encoded: C0 controls, non-ASCII, and
`space " < > ` ? # { }` (`%` is left verbatim by the basic parser). -/
def needsPathEncode (c : Char) : Bool :=
  c.toNat < 0x20 || c.toNat > 0x7e ||
    c == ' ' || c == '"' || c == '<' || c == '>' || c == '`' ||
    c == '?' || c == '#' || c == '\x7b' || c == '\x7d'

/-- Upper-case hexadecimal digit. -/
def hexUpper (n : Nat) : Char :=
  if n < 10 then Char.ofNat ('0'.toNat + n) else Char.ofNat ('A'.toNat + n - 10)

/-- UTF-8 encoding of one code point. -/
def utf8Bytes (c : Char) : List Nat :=
  let n := c.toNat
  if n < 0x80 then [n]
  else if n < 0x800 then [0xc0 + n / 0x40, 0x80 + n % 0x40]
  else if n < 0x10000 then
    [0xe0 + n / 0x1000, 0x80 + (n / 0x40) % 0x40, 0x80 + n % 0x40]
  else
    [0xf0 + n / 0x40000, 0x80 + (n / 0x1000) % 0x40, 0x80 + (n / 0x40) % 0x40,
      0x80 + n % 0x40]

/-- Percent-encode one path character when the encode set requires it. -/
def percentEncodeChar (c : Char) : List Char :=
  if needsPathEncode c then
    (utf8Bytes c).flatMap fun b => ['%', hexUpper (b / 16), hexUpper (b % 16)]
  else [c]

/-- Percent-encode a path segment. -/
def encodeSeg (seg : List Char) : List Char :=
  seg.flatMap percentEncodeChar

/-- Split a path on `/` and `\` into its segments (the empty path has one
empty segment; empty segments are preserved, as in the URL standard). -/
def splitSegs : List Char → List (List Char)
  | [] => [[]]
  | c :: rest =>
    if slashOrBack c then [] :: splitSegs rest
    else
      match splitSegs rest with
      | [] => [[c]]
      | s :: ss => (c :: s) :: ss

/-- A single-dot path segment (`.` or a percent-encoded variant,
case-insensitively). -/
def isSingleDotSeg (seg : List Char) : Bool :=
  seg.map asciiLower = ".".toList ∨ seg.map asciiLower = "%2e".toList

/-- A double-dot path segment (`..` or a percent-encoded variant,
case-insensitively). -/
def isDoubleDotSeg (seg : List Char) : Bool :=
  seg.map asciiLower = "..".toList ∨ seg.map asciiLower = ".%2e".toList ∨
    seg.map asciiLower = "%2e.".toList ∨ seg.map asciiLower = "%2e%2e".toList

/-- The WHATWG path state over the raw segments: a double-dot segment
shortens the path (appending an empty segment when it is the last one), a
single-dot segment is dropped (appending an empty segment when last), and
every other segment is appended percent-encoded. -/
def processSegs (acc : List (List Char)) : List (List Char) → List (List Char)
  | [] => acc
  | [seg] =>
    if isDoubleDotSeg seg then acc.dropLast ++ [[]]
    else if isSingleDotSeg seg then acc ++ [[]]
    else acc ++ [encodeSeg seg]
  | seg :: rest =>
    if isDoubleDotSeg seg then processSegs acc.dropLast rest
    else if isSingleDotSeg seg then processSegs acc rest
    else processSegs (acc ++ [encodeSeg seg]) rest

/-- Serialize the processed segments back to a path (`/` before each
segment). -/
def joinSegs : List (List Char) → List Char
  | [] => []
  | [s] => s
  | s :: ss => s ++ '/' :: joinSegs ss

/-- Modelled from the spec: the claim compares the fast path against
"full URL parsing" — `new URL(request.url).pathname`, a platform builtin
(WHATWG URL parser) that is not part of this repository's sources. This
definition models the pathname of the parse for a tractable fragment:
absolute URLs of a special non-`file` scheme (`http`, `https`, `ws`,
`wss`, `ftp`) written with an explicit `//`, whose host (after stripping
userinfo and a decimal port) consists of unreserved ASCII characters. On
such URLs it performs the WHATWG steps that affect the pathname: extra
slashes/backslashes before the authority are skipped, the authority ends
at the first `/ \\ ? #`, the path ends at the first `?` or `#`, `\\` acts
as a segment separator, single- and double-dot segments (including their
percent-encoded spellings) are resolved, and characters in the path
percent-encode set are percent-encoded as UTF-8. Outside the modelled
fragment (including inputs on which `new URL` throws) it returns
`none`. -/
def urlPathname (url : String) : Option String :=
  match splitFirstP (fun c => c == ':') url.toList with
  | none => none
  | some (scheme, _, rest) =>
    if validScheme scheme then
      if isSpecialNonFileScheme (scheme.map asciiLower) then
        match rest with
        | '/' :: '/' :: rest2 =>
          let rest3 := rest2.dropWhile slashOrBack
          let authority := rest3.takeWhile fun c => !(isAuthorityEnd c)
          let remainder := rest3.dropWhile fun c => !(isAuthorityEnd c)
          let hostport := afterLastAt '@' authority
          let host := hostport.takeWhile fun c => !(c == ':')
          let port := hostport.dropWhile fun c => !(c == ':')
          if hostOk host && portOk port then
            match remainder.takeWhile notQH with
            | [] => some "/"
            | _ :: pathRest =>
              some (String.mk ('/' :: joinSegs (processSegs [] (splitSegs pathRest))))
          else none
        | _ => none
      else none
    else none

/-- C1, counterexample. The raw URL `"http://h/x#y"` is absolute and the
fast path does not fall back, yet the two sides disagree: the fast path
slices up to the next `?` only and keeps the fragment, returning
`"/x#y"`, while a full URL parse stops the pathname at the `#` and
returns `"/x"`. -/
theorem c1_pathname_fragment_counterexample :
    fastPathname "http://h/x#y" = some "/x#y" ∧
      urlPathname "http://h/x#y" = some "/x" ∧
      ¬ fastPathname "http://h/x#y" = urlPathname "http://h/x#y" := by
  refine ⟨?_, ?_, ?_⟩ <;> decide

/-- A list starts with itself. -/
theorem isPrefixL_append_self (l t : List Char) : isPrefixL l (l ++ t) = true := by
  induction l with
  | nil => rfl
  | cons c cs ih => simp [isPrefixL, ih]

/-- `indexOf` of a substring beginning with `p₀` finds the occurrence
after a block free of `p₀`. -/
theorem splitFirstSub_concat (p₀ : Char) (pr a b : List Char)
    (ha : a.all (fun c => !(c == p₀)) = true) :
    splitFirstSub (p₀ :: pr) (a ++ ((p₀ :: pr) ++ b)) = some (a, b) := by
  induction a with
  | nil =>
    have hpre := isPrefixL_append_self (p₀ :: pr) b
    simp only [List.nil_append]
    rw [show (p₀ :: pr) ++ b = p₀ :: (pr ++ b) from rfl]
    rw [splitFirstSub]
    rw [show p₀ :: (pr ++ b) = (p₀ :: pr) ++ b from rfl, hpre]
    simp [List.drop_left]
  | cons c a' ih =>
    simp only [List.all_cons, Bool.and_eq_true] at ha
    have hc : (p₀ == c) = false := by
      rcases ha with ⟨h1, _⟩
      simp only [Bool.not_eq_true'] at h1
      simp only [beq_eq_false_iff_ne, ne_eq]
      intro he
      exact absurd he.symm (by simpa using h1)
    have hnotpre : isPrefixL (p₀ :: pr) (c :: (a' ++ p₀ :: (pr ++ b))) = false := by
      simp [isPrefixL, hc]
    have hih : splitFirstSub (p₀ :: pr) (a' ++ p₀ :: (pr ++ b)) = some (a', b) := ih ha.2
    simp only [List.cons_append]
    rw [splitFirstSub, hnotpre]
    simp only [Bool.false_eq_true, if_false]
    rw [hih]

/-- `indexOf` of a character class finds the first satisfying character
after a block free of it. -/
theorem splitFirstP_concat (p : Char → Bool) (a : List Char) (c : Char) (b : List Char)
    (ha : a.all (fun x => !(p x)) = true) (hc : p c = true) :
    splitFirstP p (a ++ c :: b) = some (a, c, b) := by
  induction a with
  | nil => simp [splitFirstP, hc]
  | cons x a' ih =>
    simp only [List.all_cons, Bool.and_eq_true, Bool.not_eq_true'] at ha
    simp only [List.cons_append]
    rw [splitFirstP, ha.1]
    simp only [Bool.false_eq_true, if_false]
    rw [ih (by simp [List.all_eq_true] at ha ⊢; exact ha.2)]

/-- `takeWhile` keeps a list all of whose elements satisfy the
predicate. -/
theorem takeWhile_of_all {p : Char → Bool} {l : List Char} (h : l.all p = true) :
    l.takeWhile p = l := by
  induction l with
  | nil => rfl
  | cons c cs ih =>
    simp only [List.all_cons, Bool.and_eq_true] at h
    simp [List.takeWhile_cons, h.1, ih h.2]

/-- `dropWhile` empties a list all of whose elements satisfy the
predicate. -/
theorem dropWhile_of_all {p : Char → Bool} {l : List Char} (h : l.all p = true) :
    l.dropWhile p = [] := by
  induction l with
  | nil => rfl
  | cons c cs ih =>
    simp only [List.all_cons, Bool.and_eq_true] at h
    simp [List.dropWhile_cons, h.1, ih h.2]

/-- `takeWhile` over a satisfied block followed by a failing element. -/
theorem takeWhile_append_stop {p : Char → Bool} {a : List Char} {c : Char}
    (b : List Char) (ha : a.all p = true) (hc : p c = false) :
    (a ++ c :: b).takeWhile p = a := by
  induction a with
  | nil => simp [List.takeWhile_cons, hc]
  | cons x a' ih =>
    simp only [List.all_cons, Bool.and_eq_true] at ha
    simp [List.takeWhile_cons, ha.1, ih ha.2]

/-- `dropWhile` over a satisfied block followed by a failing element. -/
theorem dropWhile_append_stop {p : Char → Bool} {a : List Char} {c : Char}
    (b : List Char) (ha : a.all p = true) (hc : p c = false) :
    (a ++ c :: b).dropWhile p = c :: b := by
  induction a with
  | nil => simp [List.dropWhile_cons, hc]
  | cons x a' ih =>
    simp only [List.all_cons, Bool.and_eq_true] at ha
    simp [List.dropWhile_cons, ha.1, ih ha.2]

/-- Scheme characters are never `:`. -/
theorem validScheme_no_colon {s : List Char} (h : validScheme s = true) :
    s.all (fun c => !(c == ':')) = true := by
  rcases s with _ | ⟨c, rest⟩
  · rfl
  · simp only [validScheme, Bool.and_eq_true] at h
    simp only [List.all_cons, Bool.and_eq_true]
    constructor
    · by_contra hcontra
      simp only [Bool.not_eq_true, Bool.not_eq_false', beq_iff_eq] at hcontra
      rw [hcontra] at h
      exact absurd h.1 (by decide)
    · simp only [List.all_eq_true] at h ⊢
      intro x hx
      by_contra hcontra
      simp only [Bool.not_eq_true, Bool.not_eq_false', beq_iff_eq] at hcontra
      have := h.2 x hx
      rw [hcontra] at this
      exact absurd this (by decide)

/-- Modelled host characters are not special URL delimiters. -/
theorem hostCharOk_not_delim {c : Char} (h : hostCharOk c = true) :
    (c == '/') = false ∧ (c == '\\') = false ∧ (c == '?') = false ∧
      (c == '#') = false ∧ (c == '@') = false ∧ (c == ':') = false := by
  refine ⟨?_, ?_, ?_, ?_, ?_, ?_⟩ <;>
  · by_contra hcontra
    simp only [Bool.not_eq_false, beq_iff_eq] at hcontra
    rw [hcontra] at h
    exact absurd h (by decide)

/-- `afterLastAt` is the identity on a list free of the character. -/
theorem afterLastAt_of_not_mem {ch : Char} {l : List Char}
    (h : l.all (fun c => !(c == ch)) = true) : afterLastAt ch l = l := by
  unfold afterLastAt
  have hrev : l.reverse.all (fun c => !(c == ch)) = true := by
    simp only [List.all_eq_true] at h ⊢
    intro c hc
    exact h c (List.mem_reverse.mp hc)
  rw [takeWhile_of_all hrev, List.reverse_reverse]

/-- When the pre-query path carries no `#`, the query-or-fragment scan
agrees with the query-only scan. -/
theorem takeWhile_notQH_eq_notQ {l : List Char}
    (h : (l.takeWhile notQ).all (fun c => !(c == '#')) = true) :
    l.takeWhile notQH = l.takeWhile notQ := by
  induction l with
  | nil => rfl
  | cons c rest ih =>
    by_cases hq : c = '?'
    · subst hq
      simp [List.takeWhile_cons, notQ, notQH]
    · have hcq : (c == '?') = false := by simp [hq]
      have hl : (c :: rest).takeWhile notQ = c :: rest.takeWhile notQ := by
        simp [List.takeWhile_cons, notQ, hcq]
      rw [hl] at h
      simp only [List.all_cons, Bool.and_eq_true] at h
      have hch : (c == '#') = false := by
        rcases h with ⟨h1, _⟩
        simpa using h1
      simp [List.takeWhile_cons, notQ, notQH, hcq, hch, ih h.2]

/-- Percent-encoding is the identity on a segment whose characters are
outside the encode set. -/
theorem encodeSeg_of_safe {seg : List Char}
    (h : seg.all (fun c => !(needsPathEncode c)) = true) : encodeSeg seg = seg := by
  induction seg with
  | nil => rfl
  | cons c rest ih =>
    simp only [List.all_cons, Bool.and_eq_true] at h
    have hc : needsPathEncode c = false := by
      rcases h with ⟨h1, _⟩
      simpa using h1
    have hrest : encodeSeg rest = rest := ih h.2
    have hone : percentEncodeChar c = [c] := by simp [percentEncodeChar, hc]
    show percentEncodeChar c ++ encodeSeg rest = c :: rest
    rw [hone, hrest]
    rfl

/-- Splitting a path always yields at least one segment. -/
theorem splitSegs_ne_nil (l : List Char) : splitSegs l ≠ [] := by
  rcases l with _ | ⟨c, rest⟩
  · simp [splitSegs]
  · simp only [splitSegs]
    by_cases hc : slashOrBack c = true
    · simp [hc]
    · simp only [Bool.not_eq_true] at hc
      simp only [hc, Bool.false_eq_true, if_false]
      rcases hs : splitSegs rest with _ | ⟨s, ss⟩ <;> simp

/-- A normal path segment: not a single- or double-dot segment, and free
of characters the path encode set would rewrite. -/
def segNormal (seg : List Char) : Bool :=
  !(isSingleDotSeg seg) && !(isDoubleDotSeg seg) &&
    seg.all (fun c => !(needsPathEncode c))

/-- The path state is the identity on a list of normal segments. -/
theorem processSegs_of_normal (segs : List (List Char)) (acc : List (List Char))
    (h : segs.all segNormal = true) : processSegs acc segs = acc ++ segs := by
  induction segs generalizing acc with
  | nil => simp [processSegs]
  | cons seg rest ih =>
    simp only [List.all_cons, Bool.and_eq_true] at h
    have hseg := h.1
    simp only [segNormal, Bool.and_eq_true, Bool.not_eq_true'] at hseg
    rcases rest with _ | ⟨seg', rest'⟩
    · simp [processSegs, hseg.1.1, hseg.1.2, encodeSeg_of_safe hseg.2]
    · simp only [processSegs, hseg.1.1, hseg.1.2, Bool.false_eq_true, if_false,
        encodeSeg_of_safe hseg.2]
      rw [ih _ h.2]
      simp

/-- Splitting on `/` (no backslash present) and joining with `/` round
trips. -/
theorem joinSegs_splitSegs {l : List Char}
    (h : l.all (fun c => !(c == '\\')) = true) : joinSegs (splitSegs l) = l := by
  induction l with
  | nil => rfl
  | cons c rest ih =>
    simp only [List.all_cons, Bool.and_eq_true] at h
    have hnb : (c == '\\') = false := by
      rcases h with ⟨h1, _⟩
      simpa using h1
    rcases hs : splitSegs rest with _ | ⟨s, ss⟩
    · exact absurd hs (splitSegs_ne_nil rest)
    have hj : joinSegs (s :: ss) = rest := by rw [← hs]; exact ih h.2
    by_cases hsl : c = '/'
    · subst hsl
      have h1 : splitSegs ('/' :: rest) = [] :: s :: ss := by
        simp [splitSegs, hs, slashOrBack]
      rw [h1]
      show '/' :: joinSegs (s :: ss) = '/' :: rest
      rw [hj]
    · have hns : slashOrBack c = false := by simp [slashOrBack, hsl, hnb]
      have h1 : splitSegs (c :: rest) = (c :: s) :: ss := by
        simp [splitSegs, hns, hs]
      rw [h1]
      rcases ss with _ | ⟨s₂, ss₂⟩
      · show c :: s = c :: rest
        have hs' : joinSegs [s] = s := rfl
        rw [hs'] at hj
        rw [hj]
      · show c :: (s ++ '/' :: joinSegs (s₂ :: ss₂)) = c :: rest
        have hj' : s ++ '/' :: joinSegs (s₂ :: ss₂) = rest := hj
        rw [hj']

/-- C1, amended: the fast path agrees with the full parse on the URLs
where none of the parser's rewritings can fire — an absolute URL of a
special non-`file` scheme with a plain (nonempty, unreserved-ASCII) host
directly followed by `/`, whose pre-query path contains no `#`, no `\`,
no single- or double-dot segment (plain or percent-encoded) and no
character of the path percent-encode set. On every such URL both sides
return `/` followed by the raw slice up to the first `?`. -/
theorem c1_fast_path_matches_full_parse (scheme host rest : List Char)
    (hsch : validScheme scheme = true)
    (hspec : isSpecialNonFileScheme (scheme.map asciiLower) = true)
    (hhost : hostOk host = true)
    (hnb : (rest.takeWhile notQ).all (fun c => !(c == '\\')) = true)
    (hnh : (rest.takeWhile notQ).all (fun c => !(c == '#')) = true)
    (hsegs : (splitSegs (rest.takeWhile notQ)).all segNormal = true) :
    fastPathname (String.mk (scheme ++ ':' :: '/' :: '/' :: (host ++ '/' :: rest))) =
      some (String.mk ('/' :: rest.takeWhile notQ)) ∧
    urlPathname (String.mk (scheme ++ ':' :: '/' :: '/' :: (host ++ '/' :: rest))) =
      some (String.mk ('/' :: rest.takeWhile notQ)) := by
  have hhostne : host ≠ [] := by
    rcases host with _ | ⟨x, xs⟩
    · exact absurd hhost (by decide)
    · simp
  rcases host with _ | ⟨h₀, host'⟩
  · exact absurd rfl hhostne
  have hall : (h₀ :: host').all hostCharOk = true := by
    simp only [hostOk, Bool.and_eq_true] at hhost
    exact hhost.2
  have hch0 : hostCharOk h₀ = true := by
    simp only [List.all_cons, Bool.and_eq_true] at hall
    exact hall.1
  have hall' : host'.all hostCharOk = true := by
    simp only [List.all_cons, Bool.and_eq_true] at hall
    exact hall.2
  have hd0 := hostCharOk_not_delim hch0
  have haslash : host'.all (fun x => !(x == '/')) = true := by
    simp only [List.all_eq_true] at hall' ⊢
    intro x hx
    have := (hostCharOk_not_delim (hall' x hx)).1
    simpa using this
  constructor
  · -- fast path
    have hsplit : splitFirstSub [':', '/', '/']
        (scheme ++ ':' :: '/' :: '/' :: h₀ :: (host' ++ '/' :: rest)) =
        some (scheme, h₀ :: (host' ++ '/' :: rest)) :=
      splitFirstSub_concat ':' ['/', '/'] scheme ((h₀ :: host') ++ '/' :: rest)
        (validScheme_no_colon hsch)
    have hsplitp : splitFirstP (fun c => c == '/') (host' ++ '/' :: rest) =
        some (host', '/', rest) :=
      splitFirstP_concat (fun c => c == '/') host' '/' rest haslash rfl
    simp only [fastPathname, String.toList, List.cons_append, hsplit, hsplitp]
  · -- full parse
    have hacolon : scheme.all (fun x => !(x == ':')) = true := validScheme_no_colon hsch
    have hsplitc : splitFirstP (fun c => c == ':')
        (scheme ++ ':' :: '/' :: '/' :: h₀ :: (host' ++ '/' :: rest)) =
        some (scheme, ':', '/' :: '/' :: h₀ :: (host' ++ '/' :: rest)) :=
      splitFirstP_concat (fun c => c == ':') scheme ':'
        ('/' :: '/' :: ((h₀ :: host') ++ '/' :: rest)) hacolon rfl
    have hnsl : slashOrBack h₀ = false := by
      simp [slashOrBack, hd0.1, hd0.2.1]
    have hdropsl : List.dropWhile slashOrBack (h₀ :: (host' ++ '/' :: rest)) =
        h₀ :: (host' ++ '/' :: rest) := by
      simp [List.dropWhile_cons, hnsl]
    have hauthall : (h₀ :: host').all (fun c => !(isAuthorityEnd c)) = true := by
      simp only [List.all_eq_true] at hall ⊢
      intro x hx
      have hx' := hostCharOk_not_delim (hall x hx)
      simp [isAuthorityEnd, hx'.1, hx'.2.1, hx'.2.2.1, hx'.2.2.2.1]
    have hauthstop : (fun c => !(isAuthorityEnd c)) '/' = false := by decide
    have htake : List.takeWhile (fun c => !(isAuthorityEnd c))
        (h₀ :: (host' ++ '/' :: rest)) = h₀ :: host' :=
      takeWhile_append_stop rest hauthall hauthstop
    have hdrop : List.dropWhile (fun c => !(isAuthorityEnd c))
        (h₀ :: (host' ++ '/' :: rest)) = '/' :: rest :=
      dropWhile_append_stop rest hauthall hauthstop
    have hnoat : (h₀ :: host').all (fun c => !(c == '@')) = true := by
      simp only [List.all_eq_true] at hall ⊢
      intro x hx
      have := (hostCharOk_not_delim (hall x hx)).2.2.2.2.1
      simpa using this
    have hafter : afterLastAt '@' (h₀ :: host') = h₀ :: host' :=
      afterLastAt_of_not_mem hnoat
    have hnocolon : (h₀ :: host').all (fun c => !(c == ':')) = true := by
      simp only [List.all_eq_true] at hall ⊢
      intro x hx
      have := (hostCharOk_not_delim (hall x hx)).2.2.2.2.2
      simpa using this
    have htakec : List.takeWhile (fun c => !(c == ':')) (h₀ :: host') = h₀ :: host' :=
      takeWhile_of_all hnocolon
    have hdropc : List.dropWhile (fun c => !(c == ':')) (h₀ :: host') = [] :=
      dropWhile_of_all hnocolon
    have htakeq : List.takeWhile notQH ('/' :: rest) = '/' :: rest.takeWhile notQ := by
      rw [List.takeWhile_cons]
      simp only [show notQH '/' = true from rfl, if_true]
      rw [takeWhile_notQH_eq_notQ hnh]
    have hproc : processSegs [] (splitSegs (rest.takeWhile notQ)) =
        splitSegs (rest.takeWhile notQ) := by
      rw [processSegs_of_normal _ _ hsegs]
      simp
    have hjoin : joinSegs (splitSegs (rest.takeWhile notQ)) = rest.takeWhile notQ :=
      joinSegs_splitSegs hnb
    simp only [urlPathname, String.toList, List.cons_append, hsplitc, hsch, if_true, hspec,
      hdropsl, htake, hdrop, hafter, htakec, hdropc, hhost, portOk, Bool.and_true, htakeq,
      hproc, hjoin]

/-- C1 witness: the agreement theorem applied to the URL
`"http://h/a/b?q"` (scheme `http`, host `h`, path-and-query `a/b?q`):
both sides return `"/a/b"`. -/
theorem c1_fast_path_matches_full_parse_witness :
    fastPathname (String.mk (['h', 't', 't', 'p'] ++ ':' :: '/' :: '/' ::
        (['h'] ++ '/' :: ['a', '/', 'b', '?', 'q']))) =
      some (String.mk ('/' :: ['a', '/', 'b', '?', 'q'].takeWhile notQ)) ∧
    urlPathname (String.mk (['h', 't', 't', 'p'] ++ ':' :: '/' :: '/' ::
        (['h'] ++ '/' :: ['a', '/', 'b', '?', 'q']))) =
      some (String.mk ('/' :: ['a', '/', 'b', '?', 'q'].takeWhile notQ)) :=
  c1_fast_path_matches_full_parse ['h', 't', 't', 'p'] ['h'] ['a', '/', 'b', '?', 'q']
    (by decide) (by decide) (by decide) (by decide) (by decide) (by decide)
